import Mathlib

/-!
Shallow embedding of the rlox tree-walking interpreter
(src/token.rs, src/parser.rs, src/environment.rs, src/interpreter.rs).

Modelling conventions:
* Rust `f64` number payloads are modelled as `Rat` (no claim under scrutiny
  depends on IEEE-754-specific behaviour such as NaN or infinity).
* Rust `HashMap<String, Literal>` is modelled as an association list with
  unique keys; `insert` overwrites an existing key in place.
* `Rc<RefCell<Environment>>` is modelled by value: the interpreter's Block
  arm clones the current environment into the child's `enclosing` field and
  takes it back on exit, which is exactly explicit state passing.
* A Rust `panic!` (from `.unwrap()` on an `Err`/`None`) is modelled by a
  dedicated `panic` outcome constructor.
* The `while` loop of `Stmt::While` and the mutually recursive descent of
  the parser are made total with a fuel parameter; running out of fuel is
  the dedicated outcome `fuelOut`, distinct from every behaviour of the
  Rust code.  Only the fuel equal to zero case produces it.
* The repository's `ast.rs` is a stale pre-statement snapshot (it lacks the
  `Expr::Literal/Variable/Assignment/Logical` and all `Stmt` variants that
  `parser.rs` and `interpreter.rs` construct and consume); the `Expr` and
  `Stmt` shapes below are taken from their construction sites in
  `parser.rs` and their match sites in `interpreter.rs`.
-/

namespace RLox

/-- `TokenType` from src/token.rs. -/
inductive TokenType where
  | LeftParen | RightParen | LeftBrace | RightBrace | Comma | Dot | Minus | Plus
  | Semicolon | Slash | Star
  | Bang | BangEqual | Equal | EqualEqual | Greater | GreaterEqual | Less | LessEqual
  | Identifier | String | Number
  | And | Class | Else | False | Fun | For | If | Nil | Or | Print | Return
  | Super | This | True | Var | While
  | Eof
deriving DecidableEq, Repr

/-- `Literal` from src/token.rs (`f64` modelled as `Rat`). -/
inductive Literal where
  | Bool (b : Bool)
  | Number (n : Rat)
  | String (s : String)
  | Nil
deriving DecidableEq, Repr

/-- `Token` from src/token.rs. -/
structure Token where
  token_type : TokenType
  lexeme : String
  literal : Option Literal
  line : Int
deriving DecidableEq, Repr

instance : Inhabited Token := ⟨⟨.Eof, "", none, 0⟩⟩

/-- `Expr` as constructed by src/parser.rs and matched by src/interpreter.rs
(the checked-in ast.rs is a stale earlier snapshot without these variants). -/
inductive Expr where
  | Literal (l : Literal)
  | Variable (name : Token)
  | Assignment (name : Token) (value : Expr)
  | Binary (left : Expr) (operator : Token) (right : Expr)
  | Logical (left : Expr) (operator : Token) (right : Expr)
  | Unary (operator : Token) (operand : Expr)
  | Grouping (inner : Expr)
deriving DecidableEq, Repr

/-- `Stmt` as constructed by src/parser.rs and matched by src/interpreter.rs. -/
inductive Stmt where
  | Expr (e : Expr)
  | Print (e : Expr)
  | Var (name : Token) (initializer : Option Expr)
  | Block (statements : List Stmt)
  | If (condition : Expr) (then_branch : Stmt) (else_branch : Option Stmt)
  | While (condition : Expr) (body : Stmt)
deriving Repr

/-- `RuntimeError` from src/interpreter.rs. -/
structure RuntimeError where
  token : Token
  message : String
deriving DecidableEq, Repr

/-- `HashMap::get` on the association-list model of
`HashMap<String, Literal>` (src/environment.rs `values`). -/
def hmGet (m : List (String × Literal)) (k : String) : Option Literal :=
  match m with
  | [] => none
  | p :: rest => if p.1 = k then some p.2 else hmGet rest k

/-- `HashMap::insert`: overwrite the existing key in place, else add the
pair (src/environment.rs uses `values.insert`). -/
def hmInsert (m : List (String × Literal)) (k : String) (v : Literal) :
    List (String × Literal) :=
  if (hmGet m k).isSome then
    m.map (fun p => if p.1 = k then (k, v) else p)
  else
    m ++ [(k, v)]

/-- `Environment` from src/environment.rs: a values map plus an optional
enclosing environment.  The Rust field `enclosing: Option<...>` is encoded
by the two constructors (`global` for `None`, `child` for `Some`) so that
recursion over the chain stays structural. -/
inductive Environment where
  | global (values : List (String × Literal))
  | child (values : List (String × Literal)) (enclosing : Environment)
deriving DecidableEq, Repr

/-- Field accessor for `Environment.values`. -/
def Environment.values : Environment → List (String × Literal)
  | .global v => v
  | .child v _ => v

/-- Field accessor for `Environment.enclosing`. -/
def Environment.enclosing : Environment → Option Environment
  | .global _ => none
  | .child _ e => some e

/-- `Environment::new` (src/environment.rs): no enclosing scope, empty map. -/
def Environment.new : Environment := .global []

/-- `Environment::from` (src/environment.rs): child scope whose `enclosing`
is the given environment (`from` is a Lean keyword, hence the underscore). -/
def Environment.from_ (enclosing : Environment) : Environment :=
  .child [] enclosing

/-- `Environment::define` (src/environment.rs): insert/overwrite in the
current scope only. -/
def Environment.define (e : Environment) (name : String) (value : Literal) :
    Environment :=
  match e with
  | .global values => .global (hmInsert values name value)
  | .child values enc => .child (hmInsert values name value) enc

/-- `Environment::get` (src/environment.rs): look up in the current scope,
then recursively outward; unbound anywhere is an undefined-variable error. -/
def Environment.get : Environment → Token → Except RuntimeError Literal
  | .global values, name =>
    match hmGet values name.lexeme with
    | some v => .ok v
    | none => .error ⟨name, "Undefined variable " ++ name.lexeme ++ "."⟩
  | .child values enc, name =>
    match hmGet values name.lexeme with
    | some v => .ok v
    | none => enc.get name

/-- `Environment::assign` (src/environment.rs): overwrite the binding in the
innermost scope that already has it; unbound anywhere is an
undefined-variable error.  State passing returns the updated environment. -/
def Environment.assign : Environment → Token → Literal →
    Except RuntimeError Environment
  | .global values, name, value =>
    if (hmGet values name.lexeme).isSome then
      .ok (.global (hmInsert values name.lexeme value))
    else .error ⟨name, "Undefined variable " ++ name.lexeme ++ "."⟩
  | .child values enc, name, value =>
    if (hmGet values name.lexeme).isSome then
      .ok (.child (hmInsert values name.lexeme value) enc)
    else
      match enc.assign name value with
      | .ok e2 => .ok (.child values e2)
      | .error err => .error err

/-- Chain lookup by plain name (specification helper for theorems: the value
`get` would return, keyed by string, `none` when unbound anywhere). -/
def lookupChain : Environment → String → Option Literal
  | .global values, n => hmGet values n
  | .child values enc, n =>
    match hmGet values n with
    | some v => some v
    | none => lookupChain enc n

/-- Whether a name is bound in the current scope or some enclosing scope
(specification helper for theorems). -/
def boundAnywhere (e : Environment) (n : String) : Bool :=
  (lookupChain e n).isSome

/-- The chain of key lists, innermost scope first (specification helper:
unchanged keys mean no binding was created or dropped in any scope). -/
def envKeys : Environment → List (List String)
  | .global values => [values.map (fun p => p.1)]
  | .child values enc => values.map (fun p => p.1) :: envKeys enc

/-- `ParseError` from src/parser.rs. -/
structure ParseError where
  token : Token
  message : String
deriving DecidableEq, Repr

/-- Result type for parser functions: `ok`/`err` mirror the Rust `Result`,
`panic` models `.unwrap()` on `None`, `fuelOut` is the fuel artefact (only a
zero fuel produces it). -/
inductive PResult (α : Type) where
  | ok (a : α)
  | err (e : ParseError)
  | panic
  | fuelOut
deriving Repr

/-- The `Parser` struct from src/parser.rs: an index into the token list. -/
structure Parser where
  current : Nat
  tokens : List Token
deriving Repr

/-- `Parser::peek`: the token at the current index (the Rust code would
panic on an out-of-range index; every input considered here ends with an
`Eof` token, which `at_end` stops at, so the default is never reached). -/
def Parser.peek (p : Parser) : Token := p.tokens.getD p.current default

/-- `Parser::previous`: the token before the current index. -/
def Parser.previous (p : Parser) : Token := p.tokens.getD (p.current - 1) default

/-- `Parser::at_end`: whether the current token is `Eof`. -/
def Parser.at_end (p : Parser) : Bool := p.peek.token_type = .Eof

/-- `Parser::check`: not at end and the current token has the given type. -/
def Parser.check (p : Parser) (token_type : TokenType) : Bool :=
  if p.at_end then false else p.peek.token_type = token_type

/-- `Parser::advance`: step the index unless at end, return the consumed
token together with the updated parser. -/
def Parser.advance (p : Parser) : Token × Parser :=
  if !p.at_end then
    let p2 : Parser := { p with current := p.current + 1 }
    (p2.previous, p2)
  else (p.previous, p)

/-- `Parser::match_`: advance past the first matching token type, if any. -/
def Parser.match_ (p : Parser) (token_types : List TokenType) : Bool × Parser :=
  match token_types with
  | [] => (false, p)
  | tt :: rest =>
    if p.check tt then (true, (p.advance).2)
    else p.match_ rest

/-- `Parser::consume`: advance past a token of the given type or produce a
parse error carrying the current token and the message. -/
def Parser.consume (p : Parser) (token_type : TokenType) (message : String) :
    PResult (Token × Parser) :=
  if p.check token_type then .ok p.advance
  else .err ⟨p.peek, message⟩

mutual

/-- `Parser::expression` (src/parser.rs): delegates to `assignment`. -/
def expression : Nat → Parser → PResult (Expr × Parser)
  | 0, _ => .fuelOut
  | fuel + 1, p => assignment fuel p

/-- `Parser::assignment` (src/parser.rs). -/
def assignment : Nat → Parser → PResult (Expr × Parser)
  | 0, _ => .fuelOut
  | fuel + 1, p =>
    match or fuel p with
    | .ok (expr, p1) =>
      let (m, p2) := p1.match_ [.Equal]
      if m then
        let equals := p2.previous
        match assignment fuel p2 with
        | .ok (value, p3) =>
          match expr with
          | .Variable t => .ok (.Assignment t value, p3)
          | _ => .err ⟨equals, "Invalid assignment target."⟩
        | r => r
      else .ok (expr, p1)
    | r => r

/-- `Parser::or` (src/parser.rs). -/
def or : Nat → Parser → PResult (Expr × Parser)
  | 0, _ => .fuelOut
  | fuel + 1, p =>
    match and fuel p with
    | .ok (expr, p1) => orLoop fuel expr p1
    | r => r

/-- The `while` loop of `Parser::or`. -/
def orLoop : Nat → Expr → Parser → PResult (Expr × Parser)
  | 0, _, _ => .fuelOut
  | fuel + 1, expr, p =>
    let (m, p1) := p.match_ [.Or]
    if m then
      let operator := p1.previous
      match and fuel p1 with
      | .ok (right, p2) => orLoop fuel (.Logical expr operator right) p2
      | r => r
    else .ok (expr, p)

/-- `Parser::and` (src/parser.rs lines 264-273).  Note: the source's loop
matches `TokenType::Or` here, not `TokenType::And`. -/
def and : Nat → Parser → PResult (Expr × Parser)
  | 0, _ => .fuelOut
  | fuel + 1, p =>
    match equality fuel p with
    | .ok (expr, p1) => andLoop fuel expr p1
    | r => r

/-- The `while` loop of `Parser::and`; its condition is
`self.match_(&vec![TokenType::Or])` in the source. -/
def andLoop : Nat → Expr → Parser → PResult (Expr × Parser)
  | 0, _, _ => .fuelOut
  | fuel + 1, expr, p =>
    let (m, p1) := p.match_ [.Or]
    if m then
      let operator := p1.previous
      match equality fuel p1 with
      | .ok (right, p2) => andLoop fuel (.Logical expr operator right) p2
      | r => r
    else .ok (expr, p)

/-- `Parser::equality` (src/parser.rs). -/
def equality : Nat → Parser → PResult (Expr × Parser)
  | 0, _ => .fuelOut
  | fuel + 1, p =>
    match comparison fuel p with
    | .ok (expr, p1) => equalityLoop fuel expr p1
    | r => r

/-- The `while` loop of `Parser::equality`. -/
def equalityLoop : Nat → Expr → Parser → PResult (Expr × Parser)
  | 0, _, _ => .fuelOut
  | fuel + 1, expr, p =>
    let (m, p1) := p.match_ [.BangEqual, .EqualEqual]
    if m then
      let operator := p1.previous
      match comparison fuel p1 with
      | .ok (right, p2) => equalityLoop fuel (.Binary expr operator right) p2
      | r => r
    else .ok (expr, p)

/-- `Parser::comparison` (src/parser.rs). -/
def comparison : Nat → Parser → PResult (Expr × Parser)
  | 0, _ => .fuelOut
  | fuel + 1, p =>
    match term fuel p with
    | .ok (expr, p1) => comparisonLoop fuel expr p1
    | r => r

/-- The `while` loop of `Parser::comparison`. -/
def comparisonLoop : Nat → Expr → Parser → PResult (Expr × Parser)
  | 0, _, _ => .fuelOut
  | fuel + 1, expr, p =>
    let (m, p1) := p.match_ [.Greater, .GreaterEqual, .LessEqual, .Less]
    if m then
      let operator := p1.previous
      match term fuel p1 with
      | .ok (right, p2) => comparisonLoop fuel (.Binary expr operator right) p2
      | r => r
    else .ok (expr, p)

/-- `Parser::term` (src/parser.rs). -/
def term : Nat → Parser → PResult (Expr × Parser)
  | 0, _ => .fuelOut
  | fuel + 1, p =>
    match factor fuel p with
    | .ok (expr, p1) => termLoop fuel expr p1
    | r => r

/-- The `while` loop of `Parser::term`. -/
def termLoop : Nat → Expr → Parser → PResult (Expr × Parser)
  | 0, _, _ => .fuelOut
  | fuel + 1, expr, p =>
    let (m, p1) := p.match_ [.Plus, .Minus]
    if m then
      let operator := p1.previous
      match factor fuel p1 with
      | .ok (right, p2) => termLoop fuel (.Binary expr operator right) p2
      | r => r
    else .ok (expr, p)

/-- `Parser::factor` (src/parser.rs). -/
def factor : Nat → Parser → PResult (Expr × Parser)
  | 0, _ => .fuelOut
  | fuel + 1, p =>
    match unary fuel p with
    | .ok (expr, p1) => factorLoop fuel expr p1
    | r => r

/-- The `while` loop of `Parser::factor`. -/
def factorLoop : Nat → Expr → Parser → PResult (Expr × Parser)
  | 0, _, _ => .fuelOut
  | fuel + 1, expr, p =>
    let (m, p1) := p.match_ [.Slash, .Star]
    if m then
      let operator := p1.previous
      match unary fuel p1 with
      | .ok (right, p2) => factorLoop fuel (.Binary expr operator right) p2
      | r => r
    else .ok (expr, p)

/-- `Parser::unary` (src/parser.rs). -/
def unary : Nat → Parser → PResult (Expr × Parser)
  | 0, _ => .fuelOut
  | fuel + 1, p =>
    let (m, p1) := p.match_ [.Bang, .Minus]
    if m then
      let operator := p1.previous
      match unary fuel p1 with
      | .ok (right, p2) => .ok (.Unary operator right, p2)
      | r => r
    else primary fuel p

/-- `Parser::primary` (src/parser.rs lines 329-366).  Note two source
peculiarities preserved verbatim: the `False` token produces
`Literal(Bool(true))` and `True` produces `Literal(Bool(false))` (lines
330-336), and the grouping case calls `consume` with
`self.peek().token_type` rather than `TokenType::RightParen` (line 353). -/
def primary : Nat → Parser → PResult (Expr × Parser)
  | 0, _ => .fuelOut
  | fuel + 1, p =>
    let (m1, p1) := p.match_ [.False]
    if m1 then .ok (.Literal (.Bool true), p1)
    else
      let (m2, p2) := p1.match_ [.True]
      if m2 then .ok (.Literal (.Bool false), p2)
      else
        let (m3, p3) := p2.match_ [.Nil]
        if m3 then .ok (.Literal .Nil, p3)
        else
          let (m4, p4) := p3.match_ [.Number, .String]
          if m4 then
            match p4.previous.literal with
            | some l => .ok (.Literal l, p4)
            | none => .panic
          else
            let (m5, p5) := p4.match_ [.Identifier]
            if m5 then .ok (.Variable p5.previous, p5)
            else
              let (m6, p6) := p5.match_ [.LeftParen]
              if m6 then
                match expression fuel p6 with
                | .ok (expr, p7) =>
                  match p7.consume p7.peek.token_type "Expect ')' after expression." with
                  | .ok (_, p8) => .ok (.Grouping expr, p8)
                  | .err e => .err e
                  | .panic => .panic
                  | .fuelOut => .fuelOut
                | r => r
              else .err ⟨p6.peek, "Expect Expression"⟩

end

/-- Result type for evaluation/execution: `ok`/`err` mirror the Rust
`Result`, `panic` models `.unwrap()` on an `Err`, `fuelOut` is the fuel
artefact of the `while` loop (only a zero fuel produces it; `evaluate`
itself never does). -/
inductive Outcome (α : Type) where
  | ok (a : α)
  | err (e : RuntimeError)
  | panic
  | fuelOut
deriving Repr

/-- `Interpreter::is_truthy` (src/interpreter.rs): `Nil` and `Bool(false)`
are falsy, everything else truthy. -/
def is_truthy : Literal → Bool
  | .Nil => false
  | .Bool b => b
  | _ => true

/-- The match of `Interpreter::evaluate_unary` (src/interpreter.rs) after
the operand has been evaluated (the operand evaluation `self.evaluate(expr)?`
happens at the call site in `evaluate` here). -/
def evaluate_unary (op : Token) (right : Literal) : Except RuntimeError Literal :=
  match op.token_type with
  | .Bang => .ok (.Bool (is_truthy right))
  | .Minus =>
    match right with
    | .Number f => .ok (.Number (f * (-1)))
    | _ => .error ⟨op, "Invalid negation operand."⟩
  | _ => .error ⟨op, "Invalid unary operand."⟩

/-- The match of `Interpreter::evaluate_binary` (src/interpreter.rs lines
197-270) after both operands have been evaluated (the two
`self.evaluate(..)?` calls happen at the call site in `evaluate` here).
Arms in source order; `TokenType::BangEqual` has no arm and falls into the
final catch-all error. -/
def evaluate_binary (op : Token) (lhs rhs : Literal) :
    Except RuntimeError Literal :=
  match op.token_type with
  | .Greater =>
    match lhs, rhs with
    | .Number l, .Number r => .ok (.Bool (decide (l > r)))
    | _, _ => .error ⟨op, "Operands must be numbers."⟩
  | .GreaterEqual =>
    match lhs, rhs with
    | .Number l, .Number r => .ok (.Bool (decide (l ≥ r)))
    | _, _ => .error ⟨op, "Operands must be numbers."⟩
  | .LessEqual =>
    match lhs, rhs with
    | .Number l, .Number r => .ok (.Bool (decide (l ≤ r)))
    | _, _ => .error ⟨op, "Operands must be numbers."⟩
  | .EqualEqual =>
    match lhs, rhs with
    | .Number l, .Number r => .ok (.Bool (decide (l = r)))
    | .String l, .String r => .ok (.Bool (decide (l = r)))
    | .String _, .Number _ => .ok (.Bool false)
    | .Number _, .String _ => .ok (.Bool false)
    | .Bool l, .Bool r => .ok (.Bool (decide (l = r)))
    | .Nil, .Nil => .ok (.Bool true)
    | _, _ => .ok (.Bool false)
  | .Less =>
    match lhs, rhs with
    | .Number l, .Number r => .ok (.Bool (decide (l < r)))
    | _, _ => .error ⟨op, "Operands must be numbers."⟩
  | .Minus =>
    match lhs, rhs with
    | .Number l, .Number r => .ok (.Number (l - r))
    | _, _ => .error ⟨op, "Operands must be numbers."⟩
  | .Plus =>
    match lhs, rhs with
    | .Number l, .Number r => .ok (.Number (l + r))
    | .String l, .String r => .ok (.String (l ++ r))
    | _, _ => .error ⟨op, "Operands must be either two numbers or two strings."⟩
  | .Slash =>
    match lhs, rhs with
    | .Number l, .Number r => .ok (.Number (l / r))
    | _, _ => .error ⟨op, "Operands must be numbers."⟩
  | .Star =>
    match lhs, rhs with
    | .Number l, .Number r => .ok (.Number (l * r))
    | _, _ => .error ⟨op, "Operands must be numbers."⟩
  | _ => .error ⟨op, "Operands must be either numbers or strings."⟩

/-- The interpreter's context: its `environment` field plus the two
host-side effect channels — stdout lines written by the `println!` in the
Print arm, and the diagnostics reported through `Lox::runtime_error`. -/
structure InterpState where
  environment : Environment
  output : List String
  reported : List RuntimeError
deriving Repr

/-- `Interpreter::evaluate` (src/interpreter.rs lines 140-166), with the
environment and effect channels passed as explicit state.  The
`Assignment` arm's `.unwrap()` on `assign`'s result is the `panic` case. -/
def evaluate : Expr → InterpState → Outcome Literal × InterpState
  | .Literal l, s => (.ok l, s)
  | .Logical lhs op rhs, s =>
    match evaluate lhs s with
    | (.ok left, s1) =>
      if op.token_type = .Or then
        if is_truthy left then (.ok left, s1) else evaluate rhs s1
      else
        if !(is_truthy left) then (.ok left, s1) else evaluate rhs s1
    | r => r
  | .Unary op e, s =>
    match evaluate e s with
    | (.ok right, s1) =>
      (match evaluate_unary op right with
       | .ok v => (.ok v, s1)
       | .error er => (.err er, s1))
    | r => r
  | .Binary lhs op rhs, s =>
    match evaluate lhs s with
    | (.ok lv, s1) =>
      (match evaluate rhs s1 with
       | (.ok rv, s2) =>
         (match evaluate_binary op lv rv with
          | .ok v => (.ok v, s2)
          | .error er => (.err er, s2))
       | r => r)
    | r => r
  | .Grouping e, s => evaluate e s
  | .Variable t, s =>
    (match s.environment.get t with
     | .ok v => (.ok v, s)
     | .error er => (.err er, s))
  | .Assignment t e, s =>
    match evaluate e s with
    | (.ok value, s1) =>
      (match s1.environment.assign t value with
       | .ok env2 => (.ok value, { s1 with environment := env2 })
       | .error _ => (.panic, s1))
    | r => r

/-- Decimal digits of a fractional part `r / d` (fuel-bounded; stops at a
zero remainder, so a terminating expansion carries no trailing zeros). -/
def fracDigits : Nat → Nat → Nat → List Nat
  | 0, _, _ => []
  | _ + 1, 0, _ => []
  | f + 1, r + 1, d => (((r + 1) * 10) / d) :: fracDigits f (((r + 1) * 10) % d) d

/-- Rust's `{}` display of an `f64` value, modelled on the `Rat` payload:
integral values print with no decimal point, otherwise the integer part
followed by `.` and the fractional digits (terminating expansions exactly,
others truncated at 17 digits as a stand-in for the double's precision). -/
def numDisplay (q : Rat) : String :=
  if q.den = 1 then toString q.num
  else
    let sign := if q.num < 0 then "-" else ""
    let a := q.num.natAbs
    sign ++ toString (a / q.den) ++ "." ++
      String.join ((fracDigits 17 (a % q.den) q.den).map (fun d => toString d))

/-- The `println!` match of the `Stmt::Print` arm of
`Interpreter::interpret_statement` (src/interpreter.rs lines 100-113): note
the `String` arm prints the text wrapped in double quotes
(`println!("\"{}\"", s)`). -/
def printLine : Literal → String
  | .Bool b => toString b
  | .Number n => numDisplay n
  | .String s => "\"" ++ s ++ "\""
  | .Nil => "nil"

mutual

/-- `Interpreter::interpret_statement` (src/interpreter.rs lines 36-138),
fuel-bounded.  `.unwrap()` sites become `panic`: the `If` arm's condition
and every statement result inside a `Block`. -/
def interpret_statement : Nat → Stmt → InterpState →
    Outcome (Option Literal) × InterpState
  | 0, _, s => (.fuelOut, s)
  | fuel + 1, stmt, s =>
    match stmt with
    | .Expr e =>
      match evaluate e s with
      | (.ok l, s1) => (.ok (some l), s1)
      | (.err er, s1) => (.ok none, { s1 with reported := s1.reported ++ [er] })
      | (.panic, s1) => (.panic, s1)
      | (.fuelOut, s1) => (.fuelOut, s1)
    | .While condition body =>
      match evaluate condition s with
      | (.ok c, s1) =>
        if is_truthy c then
          match interpret_statement fuel body s1 with
          | (.ok _, s2) => interpret_statement fuel (.While condition body) s2
          | r => r
        else (.ok none, s1)
      | (.err er, s1) => (.err er, s1)
      | (.panic, s1) => (.panic, s1)
      | (.fuelOut, s1) => (.fuelOut, s1)
    | .If condition then_branch else_branch =>
      match evaluate condition s with
      | (.ok c, s1) =>
        if is_truthy c then interpret_statement fuel then_branch s1
        else
          match else_branch with
          | some eb => interpret_statement fuel eb s1
          | none => (.ok none, s1)
      | (.err _, s1) => (.panic, s1)
      | (.panic, s1) => (.panic, s1)
      | (.fuelOut, s1) => (.fuelOut, s1)
    | .Block stmts =>
      let s1 := { s with environment := Environment.from_ s.environment }
      match runBlock fuel stmts s1 with
      | (.ok _, s2) =>
        (match s2.environment.enclosing with
         | some enc => (.ok none, { s2 with environment := enc })
         | none => (.ok none, s2))
      | (.err er, s2) => (.err er, s2)
      | (.panic, s2) => (.panic, s2)
      | (.fuelOut, s2) => (.fuelOut, s2)
    | .Print e =>
      match evaluate e s with
      | (.ok l, s1) => (.ok none, { s1 with output := s1.output ++ [printLine l] })
      | (.err er, s1) => (.ok none, { s1 with reported := s1.reported ++ [er] })
      | (.panic, s1) => (.panic, s1)
      | (.fuelOut, s1) => (.fuelOut, s1)
    | .Var name initializer =>
      match initializer with
      | some e =>
        match evaluate e s with
        | (.ok v, s1) =>
          (.ok none, { s1 with environment := s1.environment.define name.lexeme v })
        | (.err er, s1) =>
          (.ok none, { s1 with reported := s1.reported ++ [er],
                               environment := s1.environment.define name.lexeme .Nil })
        | (.panic, s1) => (.panic, s1)
        | (.fuelOut, s1) => (.fuelOut, s1)
      | none =>
        (.ok none, { s with environment := s.environment.define name.lexeme .Nil })

/-- The `for` loop over a block's statements in the `Stmt::Block` arm,
with its `.unwrap()` on each statement's result (an `Err` panics). -/
def runBlock : Nat → List Stmt → InterpState → Outcome Unit × InterpState
  | 0, _, s => (.fuelOut, s)
  | _ + 1, [], s => (.ok (), s)
  | fuel + 1, st :: rest, s =>
    match interpret_statement fuel st s with
    | (.ok _, s1) => runBlock fuel rest s1
    | (.err _, s1) => (.panic, s1)
    | (.panic, s1) => (.panic, s1)
    | (.fuelOut, s1) => (.fuelOut, s1)

end

/-- `Interpreter::interpret` (src/interpreter.rs lines 30-34): execute the
statements in order, calling `.unwrap()` on each result — an `Err` from a
statement panics the process. -/
def interpret : Nat → List Stmt → InterpState → Outcome Unit × InterpState
  | 0, _, s => (.fuelOut, s)
  | _ + 1, [], s => (.ok (), s)
  | fuel + 1, st :: rest, s =>
    match interpret_statement fuel st s with
    | (.ok _, s1) => interpret fuel rest s1
    | (.err _, s1) => (.panic, s1)
    | (.panic, s1) => (.panic, s1)
    | (.fuelOut, s1) => (.fuelOut, s1)

theorem hmGet_update_self (m : List (String × Literal)) (k : String) (v : Literal)
    (h : (hmGet m k).isSome = true) :
    hmGet (m.map (fun p => if p.1 = k then (k, v) else p)) k = some v := by
  induction m with
  | nil => simp [hmGet] at h
  | cons q rest ih =>
    by_cases hq : q.1 = k
    · simp [hmGet, hq]
    · have h2 : (hmGet rest k).isSome = true := by simpa [hmGet, hq] using h
      simp [hmGet, hq, ih h2]

theorem hmGet_append_self (m : List (String × Literal)) (k : String) (v : Literal)
    (h : (hmGet m k).isSome = false) :
    hmGet (m ++ [(k, v)]) k = some v := by
  induction m with
  | nil => simp [hmGet]
  | cons q rest ih =>
    by_cases hq : q.1 = k
    · simp [hmGet, hq] at h
    · have h2 : (hmGet rest k).isSome = false := by simpa [hmGet, hq] using h
      simp [hmGet, hq, ih h2]

theorem hmGet_insert_self (m : List (String × Literal)) (k : String) (v : Literal) :
    hmGet (hmInsert m k v) k = some v := by
  unfold hmInsert
  by_cases h : (hmGet m k).isSome = true
  · rw [if_pos h]; exact hmGet_update_self m k v h
  · have h2 : (hmGet m k).isSome = false := by
      cases hx : (hmGet m k).isSome
      · rfl
      · exact absurd hx h
    rw [if_neg (by simp [h2])]
    exact hmGet_append_self m k v h2

theorem hmGet_update_other (m : List (String × Literal)) (k k2 : String) (v : Literal)
    (hne : k2 ≠ k) :
    hmGet (m.map (fun p => if p.1 = k then (k, v) else p)) k2 = hmGet m k2 := by
  induction m with
  | nil => rfl
  | cons q rest ih =>
    by_cases hq : q.1 = k
    · have hk2 : ¬ (k = k2) := fun hh => hne hh.symm
      have hq2 : ¬ (q.1 = k2) := by rw [hq]; exact hk2
      simp [hmGet, hq, hk2, hq2, ih]
    · by_cases hq2 : q.1 = k2 <;> simp [hmGet, hq, hq2, hne, ih]

theorem hmGet_append_other (m : List (String × Literal)) (k k2 : String) (v : Literal)
    (hne : k2 ≠ k) :
    hmGet (m ++ [(k, v)]) k2 = hmGet m k2 := by
  induction m with
  | nil =>
    have hk : ¬ (k = k2) := fun hh => hne hh.symm
    simp [hmGet, hk]
  | cons q rest ih =>
    by_cases hq : q.1 = k2 <;> simp [hmGet, hq, ih]

theorem hmGet_insert_other (m : List (String × Literal)) (k k2 : String) (v : Literal)
    (hne : k2 ≠ k) :
    hmGet (hmInsert m k v) k2 = hmGet m k2 := by
  unfold hmInsert
  split
  · exact hmGet_update_other m k k2 v hne
  · exact hmGet_append_other m k k2 v hne

theorem keys_map_update (m : List (String × Literal)) (k : String) (v : Literal) :
    (m.map (fun p => if p.1 = k then (k, v) else p)).map (fun p => p.1) =
      m.map (fun p => p.1) := by
  induction m with
  | nil => rfl
  | cons q rest ih =>
    by_cases hq : q.1 = k <;> simp [hq, ih]

theorem hmInsert_keys_of_found (m : List (String × Literal)) (k : String) (v : Literal)
    (h : (hmGet m k).isSome = true) :
    (hmInsert m k v).map (fun p => p.1) = m.map (fun p => p.1) := by
  unfold hmInsert
  rw [if_pos h]
  exact keys_map_update m k v

theorem assign_of_bound (env : Environment) (name : Token) (v : Literal) :
    boundAnywhere env name.lexeme = true →
    ∃ env2, env.assign name v = .ok env2 ∧
      envKeys env2 = envKeys env ∧
      lookupChain env2 name.lexeme = some v ∧
      ∀ m, m ≠ name.lexeme → lookupChain env2 m = lookupChain env m := by
  induction env with
  | global values =>
    intro h
    have hv : (hmGet values name.lexeme).isSome = true := by
      simpa [boundAnywhere, lookupChain] using h
    refine ⟨.global (hmInsert values name.lexeme v), ?_, ?_, ?_, ?_⟩
    · simp [Environment.assign, hv]
    · simp [envKeys, hmInsert_keys_of_found values name.lexeme v hv]
    · simp [lookupChain, hmGet_insert_self]
    · intro m hm
      simp [lookupChain, hmGet_insert_other values name.lexeme m v hm]
  | child values enc ih =>
    intro h
    by_cases hv : (hmGet values name.lexeme).isSome = true
    · refine ⟨.child (hmInsert values name.lexeme v) enc, ?_, ?_, ?_, ?_⟩
      · simp [Environment.assign, hv]
      · simp [envKeys, hmInsert_keys_of_found values name.lexeme v hv]
      · simp [lookupChain, hmGet_insert_self]
      · intro m hm
        simp [lookupChain, hmGet_insert_other values name.lexeme m v hm]
    · have hget : hmGet values name.lexeme = none := by
        cases hx : hmGet values name.lexeme
        · rfl
        · exact absurd (by rw [hx]; rfl) hv
      have hb : boundAnywhere enc name.lexeme = true := by
        unfold boundAnywhere at h ⊢
        simpa [lookupChain, hget] using h
      obtain ⟨e2, ha, hk, hl, ho⟩ := ih hb
      refine ⟨.child values e2, ?_, ?_, ?_, ?_⟩
      · simp [Environment.assign, hget, ha]
      · simp [envKeys, hk]
      · simp [lookupChain, hget, hl]
      · intro m hm
        cases hx : hmGet values m <;> simp [lookupChain, hx, ho m hm]

theorem assign_of_unbound (env : Environment) (name : Token) (v : Literal) :
    boundAnywhere env name.lexeme = false →
    env.assign name v =
      .error ⟨name, "Undefined variable " ++ name.lexeme ++ "."⟩ := by
  induction env with
  | global values =>
    intro h
    have hget : (hmGet values name.lexeme).isSome = false := by
      simpa [boundAnywhere, lookupChain] using h
    simp [Environment.assign, hget]
  | child values enc ih =>
    intro h
    have hget : hmGet values name.lexeme = none := by
      unfold boundAnywhere at h
      cases hx : hmGet values name.lexeme
      · rfl
      · rw [show lookupChain (.child values enc) name.lexeme =
            (match hmGet values name.lexeme with
             | some w => some w
             | none => lookupChain enc name.lexeme) from rfl, hx] at h
        simp at h
    have hb : boundAnywhere enc name.lexeme = false := by
      unfold boundAnywhere at h ⊢
      simpa [lookupChain, hget] using h
    simp [Environment.assign, hget, ih hb]

/-- C1: evaluating the code at the failing input — `Parser::primary` on the
keyword token `true` produces the literal value `Bool(false)`, and on
`false` produces `Bool(true)` (src/parser.rs lines 329-336), contradicting
the claim's conventional boolean semantics. -/
theorem C1_true_false_literal_values_swapped :
    primary 10 ⟨0, [⟨.True, "true", some .Nil, 1⟩, ⟨.Eof, "", none, 1⟩]⟩ =
      .ok (.Literal (.Bool false),
        ⟨1, [⟨.True, "true", some .Nil, 1⟩, ⟨.Eof, "", none, 1⟩]⟩) ∧
    primary 10 ⟨0, [⟨.False, "false", some .Nil, 1⟩, ⟨.Eof, "", none, 1⟩]⟩ =
      .ok (.Literal (.Bool true),
        ⟨1, [⟨.False, "false", some .Nil, 1⟩, ⟨.Eof, "", none, 1⟩]⟩) :=
  ⟨rfl, rfl⟩

/-- C2: evaluating the code at the failing input — a `Binary` expression
whose operator is `!=` always produces the runtime error "Operands must be
either numbers or strings.", because `evaluate_binary` has no `BangEqual`
arm and the operator falls into the catch-all (src/interpreter.rs lines
197-270); shown on `nil != nil` and `1 != 1`, for which the claim requires
an error-free boolean result. -/
theorem C2_bang_equal_always_runtime_error :
    evaluate (.Binary (.Literal .Nil) ⟨.BangEqual, "!=", some .Nil, 1⟩
        (.Literal .Nil)) ⟨.new, [], []⟩ =
      (.err ⟨⟨.BangEqual, "!=", some .Nil, 1⟩,
        "Operands must be either numbers or strings."⟩, ⟨.new, [], []⟩) ∧
    evaluate (.Binary (.Literal (.Number 1)) ⟨.BangEqual, "!=", some .Nil, 1⟩
        (.Literal (.Number 1))) ⟨.new, [], []⟩ =
      (.err ⟨⟨.BangEqual, "!=", some .Nil, 1⟩,
        "Operands must be either numbers or strings."⟩, ⟨.new, [], []⟩) :=
  ⟨rfl, rfl⟩

/-- C3: evaluating the code at the failing input — on the token sequence
`1 and 2 ;` the parser function `and` returns just the left operand with
the index still on the `and` keyword token (position 1): no `Logical` node
is built and the `and` token is never consumed, because the loop in
`Parser::and` matches `TokenType::Or` instead of `TokenType::And`
(src/parser.rs line 266). -/
theorem C3_and_keyword_not_consumed :
    and 10 ⟨0, [⟨.Number, "1", some (.Number 1), 1⟩, ⟨.And, "and", some .Nil, 1⟩,
                ⟨.Number, "2", some (.Number 2), 1⟩, ⟨.Semicolon, ";", some .Nil, 1⟩,
                ⟨.Eof, "", none, 1⟩]⟩ =
      .ok (.Literal (.Number 1),
        ⟨1, [⟨.Number, "1", some (.Number 1), 1⟩, ⟨.And, "and", some .Nil, 1⟩,
             ⟨.Number, "2", some (.Number 2), 1⟩, ⟨.Semicolon, ";", some .Nil, 1⟩,
             ⟨.Eof, "", none, 1⟩]⟩) :=
  rfl

/-- C4: `Logical` short-circuits (src/interpreter.rs lines 143-155): when
the left operand evaluates to `v`, an `or` node with truthy `v` and an
`and` node with falsy `v` return `v` with the right sub-expression never
evaluated (the result is the same for every `rhs`); otherwise the result
is that of the right operand evaluated in the post-left state. -/
theorem C4_logical_short_circuit (lhs rhs : Expr) (op : Token)
    (s s1 : InterpState) (v : Literal)
    (h : evaluate lhs s = (.ok v, s1)) :
    (op.token_type = .Or → is_truthy v = true →
      evaluate (.Logical lhs op rhs) s = (.ok v, s1)) ∧
    (op.token_type = .And → is_truthy v = false →
      evaluate (.Logical lhs op rhs) s = (.ok v, s1)) ∧
    (op.token_type = .Or → is_truthy v = false →
      evaluate (.Logical lhs op rhs) s = evaluate rhs s1) ∧
    (op.token_type = .And → is_truthy v = true →
      evaluate (.Logical lhs op rhs) s = evaluate rhs s1) := by
  refine ⟨?_, ?_, ?_, ?_⟩ <;> intro hop htr <;> simp [evaluate, h, hop, htr]

/-- C4 witness: `false and (x = nil)` returns `Bool(false)` without
evaluating the right-hand assignment (which would panic on the unbound
`x`), and `nil or 7` falls through to the right operand. -/
theorem C4_logical_short_circuit_witness :
    evaluate (.Logical (.Literal (.Bool false)) ⟨.And, "and", some .Nil, 1⟩
        (.Assignment ⟨.Identifier, "x", some .Nil, 1⟩ (.Literal .Nil)))
      ⟨.new, [], []⟩ = (.ok (.Bool false), ⟨.new, [], []⟩) ∧
    evaluate (.Logical (.Literal .Nil) ⟨.Or, "or", some .Nil, 1⟩
        (.Literal (.Number 7))) ⟨.new, [], []⟩ =
      (.ok (.Number 7), ⟨.new, [], []⟩) :=
  ⟨(C4_logical_short_circuit (.Literal (.Bool false))
      (.Assignment ⟨.Identifier, "x", some .Nil, 1⟩ (.Literal .Nil))
      ⟨.And, "and", some .Nil, 1⟩ ⟨.new, [], []⟩ ⟨.new, [], []⟩
      (.Bool false) rfl).2.1 rfl rfl,
   by
     rw [(C4_logical_short_circuit (.Literal .Nil) (.Literal (.Number 7))
       ⟨.Or, "or", some .Nil, 1⟩ ⟨.new, [], []⟩ ⟨.new, [], []⟩
       .Nil rfl).2.2.1 rfl rfl]
     rfl⟩

/-- C5: evaluating the code at the failing inputs — first, a runtime error
raised by a `While` condition propagates to `interpret`'s `.unwrap()`
(src/interpreter.rs line 32), which panics the process with nothing
reported; second, a runtime error inside an expression statement is
reported but execution continues with the remaining statements (here the
following `print` still runs).  Both contradict the claim (report, abort
the remaining statements, and do not crash). -/
theorem C5_runtime_error_panics_or_continues :
    interpret 10 [.While (.Variable ⟨.Identifier, "x", some .Nil, 1⟩)
        (.Expr (.Literal .Nil)), .Print (.Literal .Nil)] ⟨.new, [], []⟩ =
      (.panic, ⟨.new, [], []⟩) ∧
    interpret 10 [.Expr (.Variable ⟨.Identifier, "x", some .Nil, 1⟩),
        .Print (.Literal .Nil)] ⟨.new, [], []⟩ =
      (.ok (), ⟨.new, ["nil"],
        [⟨⟨.Identifier, "x", some .Nil, 1⟩, "Undefined variable x."⟩]⟩) :=
  ⟨rfl, rfl⟩

/-- C6: evaluating the code at the failing input — a runtime error inside a
`Block` (here a `While` condition reading the unbound `x`) hits the
`.unwrap()` in the Block arm (src/interpreter.rs lines 84-95) and panics
with the freshly created child environment still current: the prior
environment `global [("y", Nil)]` is not restored on this exit path (the
second conjunct records that the final environment differs from it). -/
theorem C6_block_env_not_restored_on_error :
    interpret_statement 10
      (.Block [.While (.Variable ⟨.Identifier, "x", some .Nil, 1⟩)
        (.Expr (.Literal .Nil))])
      ⟨.global [("y", .Nil)], [], []⟩ =
      (.panic, ⟨.child [] (.global [("y", .Nil)]), [], []⟩) ∧
    (Environment.child [] (.global [("y", .Nil)])) ≠ .global [("y", .Nil)] :=
  ⟨rfl, by decide⟩

/-- C7: `Environment::assign` (src/environment.rs lines 45-61): when the
name is bound in the current scope or some enclosing scope, `assign`
succeeds and mutates that binding in place — the key sets of every scope
in the chain are unchanged, the name now resolves to the new value, and
every other name resolves as before; when the name is bound nowhere in the
chain, `assign` fails with the "Undefined variable" runtime error and (the
result being an error) no binding is created in any scope. -/
theorem C7_assign_mutates_or_errors (env : Environment) (name : Token)
    (v : Literal) :
    (boundAnywhere env name.lexeme = true →
      ∃ env2, env.assign name v = .ok env2 ∧
        envKeys env2 = envKeys env ∧
        lookupChain env2 name.lexeme = some v ∧
        ∀ m, m ≠ name.lexeme → lookupChain env2 m = lookupChain env m) ∧
    (boundAnywhere env name.lexeme = false →
      env.assign name v =
        .error ⟨name, "Undefined variable " ++ name.lexeme ++ "."⟩) :=
  ⟨assign_of_bound env name v, assign_of_unbound env name v⟩

/-- C7 witness: on the chain `child [] (global [("x", Nil)])` the name `x`
is bound in the enclosing scope and assigning rebinds it there; on the
empty global environment `x` is unbound and `assign` errors. -/
theorem C7_assign_mutates_or_errors_witness :
    boundAnywhere (.child [] (.global [("x", .Nil)])) "x" = true ∧
    (∃ env2, (Environment.child [] (.global [("x", .Nil)])).assign
        ⟨.Identifier, "x", some .Nil, 1⟩ (.Bool true) = .ok env2 ∧
      envKeys env2 = envKeys (.child [] (.global [("x", .Nil)])) ∧
      lookupChain env2 "x" = some (.Bool true) ∧
      ∀ m, m ≠ "x" →
        lookupChain env2 m = lookupChain (.child [] (.global [("x", .Nil)])) m) ∧
    (Environment.global []).assign ⟨.Identifier, "x", some .Nil, 1⟩ (.Bool true) =
      .error ⟨⟨.Identifier, "x", some .Nil, 1⟩, "Undefined variable x."⟩ :=
  ⟨rfl,
   (C7_assign_mutates_or_errors (.child [] (.global [("x", .Nil)]))
     ⟨.Identifier, "x", some .Nil, 1⟩ (.Bool true)).1 rfl,
   (C7_assign_mutates_or_errors (.global [])
     ⟨.Identifier, "x", some .Nil, 1⟩ (.Bool true)).2 rfl⟩

/-- C8: evaluating the code at the failing input — in `( 1 ;` the token
after the inner expression is `;`, not `)`, so the claim requires the
parse error "Expect ')' after expression."; instead `primary` succeeds and
consumes the `;` as if it were the closer, because `consume` is called
with `self.peek().token_type` rather than `TokenType::RightParen`
(src/parser.rs line 353).  The second conjunct records that the error
fires only when the next token is `Eof`. -/
theorem C8_missing_rparen_not_detected :
    primary 100 ⟨0, [⟨.LeftParen, "(", some .Nil, 1⟩,
        ⟨.Number, "1", some (.Number 1), 1⟩,
        ⟨.Semicolon, ";", some .Nil, 1⟩, ⟨.Eof, "", none, 1⟩]⟩ =
      .ok (.Grouping (.Literal (.Number 1)),
        ⟨3, [⟨.LeftParen, "(", some .Nil, 1⟩,
             ⟨.Number, "1", some (.Number 1), 1⟩,
             ⟨.Semicolon, ";", some .Nil, 1⟩, ⟨.Eof, "", none, 1⟩]⟩) ∧
    primary 100 ⟨0, [⟨.LeftParen, "(", some .Nil, 1⟩,
        ⟨.Number, "1", some (.Number 1), 1⟩, ⟨.Eof, "", none, 1⟩]⟩ =
      .err ⟨⟨.Eof, "", none, 1⟩, "Expect ')' after expression."⟩ :=
  ⟨rfl, rfl⟩

/-- C9 counterexample: printing the String value `a` writes the text
wrapped in double quotes (the line `"a"` including the quote characters),
not the raw text `a` required by the claim (src/interpreter.rs lines
107-109, `println!("\"{}\"", s)`). -/
theorem C9_string_display_quoted_counterexample :
    interpret_statement 1 (.Print (.Literal (.String "a"))) ⟨.new, [], []⟩ =
      (.ok none, ⟨.new, ["\"a\""], []⟩) ∧
    ("\"a\"" : String) ≠ "a" :=
  ⟨rfl, by decide⟩

/-- C9 amended: the display form written by a `Print` statement is: `Nil`
as `nil`; `Bool` as `true`/`false`; a String as its raw text surrounded by
double quotes; a Number in decimal form with no trailing `.0` when the
value is integral (an integral value prints as its integer digits, so 4.0
prints as `4`, and 9/2 prints as `4.5`). -/
theorem C9_print_display_form :
    (∀ (fuel : Nat) (v : Literal) (s : InterpState),
      interpret_statement (fuel + 1) (.Print (.Literal v)) s =
        (.ok none, { s with output := s.output ++ [printLine v] })) ∧
    printLine .Nil = "nil" ∧
    printLine (.Bool true) = "true" ∧
    printLine (.Bool false) = "false" ∧
    (∀ str : String, printLine (.String str) = "\"" ++ str ++ "\"") ∧
    (∀ i : Int, printLine (.Number (i : Rat)) = toString i) ∧
    printLine (.Number (mkRat 9 2)) = "4.5" := by
  refine ⟨?_, rfl, rfl, rfl, fun str => rfl, ?_, rfl⟩
  · intro fuel v s
    simp [interpret_statement, evaluate]
  · intro i
    simp [printLine, numDisplay, Rat.den_intCast, Rat.num_intCast]

/-- C10: when the initializer of a `Var` declaration raises a runtime
error, the error is reported, the declaration still completes — the name
is defined in the current scope bound to `Nil` — and `interpret` continues
with the next statement (src/interpreter.rs lines 122-136). -/
theorem C10_var_decl_error_not_atomic (fuel : Nat) (name : Token) (e : Expr)
    (s s1 : InterpState) (er : RuntimeError) (rest : List Stmt)
    (h : evaluate e s = (.err er, s1)) :
    interpret_statement (fuel + 1) (.Var name (some e)) s =
      (.ok none, { s1 with reported := s1.reported ++ [er],
                           environment := s1.environment.define name.lexeme .Nil }) ∧
    interpret (fuel + 2) (.Var name (some e) :: rest) s =
      interpret (fuel + 1) rest
        { s1 with reported := s1.reported ++ [er],
                  environment := s1.environment.define name.lexeme .Nil } := by
  constructor
  · simp [interpret_statement, h]
  · simp [interpret, interpret_statement, h]

/-- C10 witness: `var x = y;` with `y` unbound on the empty environment —
the undefined-variable error on `y` is reported, `x` is still defined to
`Nil` in the current scope, and execution proceeds past the declaration. -/
theorem C10_var_decl_error_not_atomic_witness :
    interpret_statement 1 (.Var ⟨.Identifier, "x", some .Nil, 1⟩
        (some (.Variable ⟨.Identifier, "y", some .Nil, 1⟩))) ⟨.new, [], []⟩ =
      (.ok none, ⟨.global [("x", .Nil)], [],
        [⟨⟨.Identifier, "y", some .Nil, 1⟩, "Undefined variable y."⟩]⟩) := by
  have h := (C10_var_decl_error_not_atomic 0 ⟨.Identifier, "x", some .Nil, 1⟩
    (.Variable ⟨.Identifier, "y", some .Nil, 1⟩) ⟨.new, [], []⟩ ⟨.new, [], []⟩
    ⟨⟨.Identifier, "y", some .Nil, 1⟩, "Undefined variable y."⟩ [] rfl).1
  simpa using h

end RLox
